import Mathlib

/-!
Shallow embedding of the expense-splitting FastAPI service in `split.py`:
in-memory user and group stores, JWT-style access and refresh tokens, group
creation and membership, and the submit/approve payment workflow.

Modelling conventions:
- money amounts (Python floats) are rationals;
- the two module-level dictionaries `fake_users_db` and `fake_groups_db` are
  association lists with Python dict semantics (unique keys, insertion order,
  assignment appends at the end when the key is new);
- Python dictionaries built by different code paths have different key sets
  (`register` creates group records holding only a `members` list), so the
  group record's other fields are `Option`s, and reading an absent field is
  the explicit `keyError` outcome, mirroring the unhandled `KeyError`;
- an unhandled `ZeroDivisionError` is the explicit `zeroDivision` outcome;
- every state-changing handler returns its result together with the store
  state at the moment it returned or raised, because the Python handlers
  mutate the global stores before some of the points where they can raise;
- a JWT is modelled as its decoded payload; tokens minted by this service
  always carry a valid signature, and signature forgery is outside the model.
-/

namespace SplitApp

/-- Python dict lookup on an association list (first matching key). -/
def alookup {α : Type} : List (String × α) → String → Option α
  | [], _ => none
  | p :: rest, key => if p.1 = key then some p.2 else alookup rest key

/-- Python dict assignment `d[key] = val`: replace the value stored at `key`,
or append a new entry at the end (insertion order) when the key is absent. -/
def aset {α : Type} : List (String × α) → String → α → List (String × α)
  | [], key, val => [(key, val)]
  | p :: rest, key, val =>
      if p.1 = key then (key, val) :: rest else p :: aset rest key val

/-- Python `d.setdefault(key, val)`. -/
def asetdefault {α : Type} (l : List (String × α)) (key : String) (val : α) :
    List (String × α) :=
  match alookup l key with
  | some _ => l
  | none => l ++ [(key, val)]

/-- Number of entries stored under `key` (a Python dict always has 0 or 1). -/
def keyCount {α : Type} (l : List (String × α)) (key : String) : Nat :=
  (l.filter (fun p => p.1 == key)).length

/-- Python `round(x, 2)`: rounding to two decimal places, as in the split
recomputation of `add_user_to_group`.  (Python rounds ties on binary floats
to even; the tie-breaking convention is irrelevant to every property stated
below, which only uses `|round2 q - q| ≤ 1/200`.) -/
def round2 (q : ℚ) : ℚ := ((round (q * 100) : ℤ) : ℚ) / 100

/-- Outcome of a handler: an `HTTPException(status_code, detail)`, or an
unhandled Python exception (`KeyError` on a missing dict key,
`ZeroDivisionError` on the unguarded split division). -/
inductive Err where
  | http (code : Nat) (detail : String)
  | keyError
  | zeroDivision
deriving DecidableEq, Repr

/-- The `status` strings a Payment record can hold.  `pending` (written by the
fallback branch of `approve_payment`) is distinct from `pending_approval`
(written by `pay_share`), exactly as the two distinct strings in the source. -/
inductive PayStatus where
  | unpaid
  | pending_approval
  | approved
  | denied
  | pending
deriving DecidableEq, Repr

/-- A per-member payment record: `{"paid_amount": ..., "status": ...}`. -/
structure Payment where
  paid_amount : ℚ
  status : PayStatus
deriving DecidableEq, Repr

/-- A value of `fake_groups_db`.  `create_group` builds records with every
field present; `register` builds records holding only `members`, so every
other field is optional and reading it may raise `KeyError`. -/
structure Group where
  admin : Option String
  budget : Option ℚ
  members : List String
  split_amount : Option ℚ
  payments : Option (List (String × Payment))
deriving DecidableEq, Repr

/-- A value of `fake_users_db`. -/
structure UserRec where
  username : String
  password : String
  roles : List String
  groups : List String
deriving DecidableEq, Repr

/-- The two module-level stores. -/
structure State where
  users : List (String × UserRec)
  groups : List (String × Group)
deriving DecidableEq, Repr

/-- The empty stores the module starts with. -/
def initState : State := ⟨[], []⟩

/-- Setting `ACCESS_TOKEN_EXPIRE_MINUTES`. -/
def ACCESS_TOKEN_EXPIRE_MINUTES : Nat := 30

/-- Setting `REFRESH_TOKEN_EXPIRE_DAYS`. -/
def REFRESH_TOKEN_EXPIRE_DAYS : Nat := 7

/-- The claims a token is minted from (the `data` dict built by `login` and
by the refresh endpoint). -/
structure Claims where
  sub : String
  roles : List String
  groups : List String
deriving DecidableEq, Repr

/-- The decoded payload of a minted JWT.  Timestamps are in seconds. -/
structure TokenPayload where
  sub : String
  roles : List String
  groups : List String
  exp : Nat
  token_type : String
deriving DecidableEq, Repr

/-- Function `create_access_token`: copies the claims, stamps `exp = now + delta`
(default 30 minutes) and `token_type = "access"`, and signs. -/
def create_access_token (data : Claims) (now : Nat) (expires_delta : Option Nat) :
    TokenPayload :=
  { sub := data.sub, roles := data.roles, groups := data.groups
    exp := now + expires_delta.getD (ACCESS_TOKEN_EXPIRE_MINUTES * 60)
    token_type := "access" }

/-- Function `create_refresh_token`: stamps `exp = now + 7 days` and
`token_type = "refresh"`. -/
def create_refresh_token (data : Claims) (now : Nat) : TokenPayload :=
  { sub := data.sub, roles := data.roles, groups := data.groups
    exp := now + REFRESH_TOKEN_EXPIRE_DAYS * 86400
    token_type := "refresh" }

/-- The password hash stored by `register`.  The underlying pbkdf2 hash is an
external library primitive; it is modelled abstractly by a tagging function,
which is all the properties below depend on. -/
def hash_password (password : String) : String :=
  String.append "pbkdf2_sha256$" password

/-- Function `verify_password`. -/
def verify_password (plain_password hashed_password : String) : Bool :=
  hash_password plain_password == hashed_password

/-- Function `get_token_payload`: `jwt.decode` checks the signature (always valid for
tokens minted here) and the `exp` claim, raising 401 when expired.  No check
of `token_type` is performed. -/
def get_token_payload (token : TokenPayload) (now : Nat) : Except Err TokenPayload :=
  if token.exp ≤ now then .error (.http 401 "Token expired")
  else .ok token

/-- Function `authenticate_user`. -/
def authenticate_user (username password : String) (st : State) : Option UserRec :=
  match alookup st.users username with
  | none => none
  | some user => if verify_password password user.password then some user else none

/-- Python `s.split(",")` on the underlying character list. -/
def splitCommaAux : List Char → List Char → List (List Char)
  | [], acc => [acc.reverse]
  | c :: rest, acc =>
      if c = ',' then acc.reverse :: splitCommaAux rest []
      else splitCommaAux rest (c :: acc)

/-- Python `str.strip()`: drop whitespace from both ends. -/
def stripChars (l : List Char) : List Char :=
  ((l.dropWhile Char.isWhitespace).reverse.dropWhile Char.isWhitespace).reverse

/-- The list built by `register` from the `groups` form field:
`[g.strip() for g in groups.split(",") if g.strip()]`. -/
def parseGroups (groups : String) : List String :=
  ((splitCommaAux groups.toList []).map (fun cs => String.mk (stripChars cs))).filter
    (fun g => g != "")

/-- Endpoint `POST /register`: rejects duplicate usernames, stores the user, then
appends the username to the `members` list of each listed group, creating a
record holding only `{"members": []}` when the group is absent.  It creates
no Payment records and recomputes no split. -/
def register (username password role groups : String) (st : State) :
    Except Err (String × List String × List String) × State :=
  if (alookup st.users username).isSome then
    (.error (.http 400 "User already exists"), st)
  else
    let groups_list := parseGroups groups
    let users1 := aset st.users username
      { username := username, password := hash_password password
        roles := [role], groups := groups_list }
    let groups1 := groups_list.foldl (fun db g =>
      match alookup db g with
      | some grp => aset db g { grp with members := grp.members ++ [username] }
      | none => db ++ [(g, { admin := none, budget := none, members := [username]
                             split_amount := none, payments := none })]) st.groups
    (.ok (username, [role], groups_list), { users := users1, groups := groups1 })

/-- Endpoint `POST /login`: authenticates and mints an access and a refresh token from
the stored user record.  No store mutation. -/
def login (username password : String) (st : State) (now : Nat) :
    Except Err (TokenPayload × TokenPayload) :=
  match authenticate_user username password st with
  | none => .error (.http 401 "Invalid credentials")
  | some user =>
    let payload : Claims := ⟨user.username, user.roles, user.groups⟩
    .ok (create_access_token payload now none, create_refresh_token payload now)

/-- Endpoint `POST /refresh`: the only place in the service that inspects
`token_type`; it demands `"refresh"` and mints a fresh access token. -/
def refresh_token (token : TokenPayload) (now : Nat) : Except Err TokenPayload :=
  match get_token_payload token now with
  | .error e => .error e
  | .ok payload =>
    if payload.token_type ≠ "refresh" then
      .error (.http 401 "Invalid refresh token")
    else
      .ok (create_access_token ⟨payload.sub, payload.roles, payload.groups⟩ now none)

/-- Endpoint `GET /protected`: accepts any payload `get_token_payload` returns —
there is no `token_type` check on this path. -/
def protected_endpoint (token : TokenPayload) (now : Nat) :
    Except Err (String × List String) :=
  match get_token_payload token now with
  | .error e => .error e
  | .ok payload => .ok (String.append "Hello " payload.sub, payload.roles)

/-- Endpoint `POST /groups/create`.  Mirrors the statement order of the source: the
group record (with `members = []`, `split_amount = 0`, `payments = {}`) is
stored first, the creator is optionally appended, and only then is
`budget / len(members)` computed — so with `add_creator = false` the division
by zero raises after the broken record is already in the store.  `creator`
is the `sub` claim of the presented token. -/
def create_group (group_name : String) (budget : ℚ) (add_creator : Bool)
    (creator : String) (st : State) : Except Err Group × State :=
  if (alookup st.groups group_name).isSome then
    (.error (.http 400 "Group already exists"), st)
  else
    let members := if add_creator then [creator] else []
    if members.length = 0 then
      let g0 : Group :=
        { admin := some creator, budget := some budget, members := members
          split_amount := some 0, payments := some [] }
      (.error .zeroDivision, { st with groups := aset st.groups group_name g0 })
    else
      let g : Group :=
        { admin := some creator, budget := some budget, members := members
          split_amount := some (budget / (members.length : ℚ))
          payments := some (members.map (fun m => (m, ⟨0, .unpaid⟩))) }
      (.ok g, { st with groups := aset st.groups group_name g })

/-- Endpoint `POST /groups/add-user`.  Mirrors the statement order of the source: the
member and user-record mutations happen before `group["budget"]` is read, so
on a `register`-created group record the `KeyError` is raised only after the
membership lists were already extended. -/
def add_user_to_group (username group_name : String) (st : State) :
    Except Err ℚ × State :=
  match alookup st.users username with
  | none => (.error (.http 404 "User not found"), st)
  | some user =>
    match alookup st.groups group_name with
    | none => (.error (.http 404 "Group not found"), st)
    | some g =>
      let g1 := if username ∈ g.members then g
                else { g with members := g.members ++ [username] }
      let users1 := if username ∈ g.members then st.users
                    else aset st.users username
                           { user with groups := user.groups ++ [group_name] }
      match g1.budget with
      | none => (.error .keyError,
                 { users := users1, groups := aset st.groups group_name g1 })
      | some budget =>
        let split := round2 (budget / (g1.members.length : ℚ))
        let g2 := { g1 with split_amount := some split }
        match g2.payments with
        | none => (.error .keyError,
                   { users := users1, groups := aset st.groups group_name g2 })
        | some ps =>
          let ps1 := g2.members.foldl (fun acc m => asetdefault acc m ⟨0, .unpaid⟩) ps
          let g3 := { g2 with payments := some ps1 }
          (.ok split, { users := users1, groups := aset st.groups group_name g3 })

/-- Endpoint `POST /groups/.../pay`.  `username` is the `sub` claim of the
presented token.  The payment record is read (line order: split, then the
record, then the overpayment check) and overwritten with
`{"paid_amount": amount, "status": "pending_approval"}` — no check of the
record's previous status and no lower bound on `amount`. -/
def pay_share (group_name : String) (amount : ℚ) (username : String) (st : State) :
    Except Err Payment × State :=
  match alookup st.groups group_name with
  | none => (.error (.http 403 "Not part of this group"), st)
  | some g =>
    if username ∈ g.members then
      match g.split_amount with
      | none => (.error .keyError, st)
      | some split =>
        match g.payments with
        | none => (.error .keyError, st)
        | some ps =>
          match alookup ps username with
          | none => (.error .keyError, st)
          | some _ =>
            if amount > split then
              (.error (.http 400 "Exceeds threshold amount"), st)
            else
              let p1 : Payment := ⟨amount, .pending_approval⟩
              let g1 := { g with payments := some (aset ps username p1) }
              (.ok p1, { st with groups := aset st.groups group_name g1 })
    else (.error (.http 403 "Not part of this group"), st)

/-- Endpoint `POST /groups/.../approve`.  `caller` is the `sub` claim of the
presented token.  The decision chain of the source: `approve` with an exactly
matching amount sets `approved`; otherwise `deny` sets `denied`; otherwise —
including `approve` with a non-matching amount — the fallback sets
`pending`. -/
def approve_payment (group_name username action caller : String) (st : State) :
    Except Err Payment × State :=
  match alookup st.groups group_name with
  | none => (.error (.http 404 "Group not found"), st)
  | some g =>
    match g.admin with
    | none => (.error .keyError, st)
    | some adm =>
      if caller ≠ adm then
        (.error (.http 403 "Only admin can approve payments"), st)
      else
        match g.payments with
        | none => (.error .keyError, st)
        | some ps =>
          match alookup ps username with
          | none => (.error (.http 404 "User not in this group"), st)
          | some p =>
            match g.split_amount with
            | none => (.error .keyError, st)
            | some split =>
              let p1 : Payment :=
                if action = "approve" ∧ p.paid_amount = split then
                  { p with status := .approved }
                else if action = "deny" then
                  { p with status := .denied }
                else
                  { p with status := .pending }
              let g1 := { g with payments := some (aset ps username p1) }
              (.ok p1, { st with groups := aset st.groups group_name g1 })

/-- The spec's per-group invariant: the group record has its budget, split
and payments fields, `split_amount * |members|` is within rounding tolerance
of the budget (each of the `|members|` stored shares is off by at most half a
cent, i.e. `1/200`), and every member has exactly one Payment record. -/
def GroupInv (g : Group) : Prop :=
  ∃ b s ps, g.budget = some b ∧ g.split_amount = some s ∧ g.payments = some ps ∧
    |s * (g.members.length : ℚ) - b| ≤ (g.members.length : ℚ) / 200 ∧
    ∀ m ∈ g.members, keyCount ps m = 1

/-- The spec's invariant, for every group in the store. -/
def StInv (st : State) : Prop :=
  ∀ gn g, alookup st.groups gn = some g → GroupInv g

/-- Strengthening of `GroupInv` used for the induction: the payments keys are
duplicate-free and every member's lookup succeeds. -/
def GroupInvAux (g : Group) : Prop :=
  ∃ b s ps, g.budget = some b ∧ g.split_amount = some s ∧ g.payments = some ps ∧
    (ps.map Prod.fst).Nodup ∧
    |s * (g.members.length : ℚ) - b| ≤ (g.members.length : ℚ) / 200 ∧
    ∀ m ∈ g.members, (alookup ps m).isSome

/-- Predicate `GroupInvAux` for every group in the store. -/
def StInvAux (st : State) : Prop :=
  ∀ gn g, alookup st.groups gn = some g → GroupInvAux g

/-- The states reachable from the empty stores by any sequence of the five
store-mutating operations, with arbitrary arguments and whether or not the
call succeeded — the state each constructor steps to is the state the handler
left behind. -/
inductive ReachableOrig : State → Prop where
  | init : ReachableOrig initState
  | reg (u p r gs : String) {st : State} : ReachableOrig st →
      ReachableOrig ((register u p r gs st).2)
  | cg (gn : String) (b : ℚ) (ac : Bool) (c : String) {st : State} :
      ReachableOrig st → ReachableOrig ((create_group gn b ac c st).2)
  | addm (u gn : String) {st : State} : ReachableOrig st →
      ReachableOrig ((add_user_to_group u gn st).2)
  | pay (gn : String) (a : ℚ) (u : String) {st : State} : ReachableOrig st →
      ReachableOrig ((pay_share gn a u st).2)
  | dec (gn u act c : String) {st : State} : ReachableOrig st →
      ReachableOrig ((approve_payment gn u act c st).2)

/-- The restricted sequences under which the invariant does hold: as
`ReachableOrig`, except that `register` carries no initial groups and
`create_group` is called with `add_creator = true`. -/
inductive ReachableR : State → Prop where
  | init : ReachableR initState
  | reg (u p r gs : String) {st : State} : ReachableR st → parseGroups gs = [] →
      ReachableR ((register u p r gs st).2)
  | cg (gn : String) (b : ℚ) (c : String) {st : State} :
      ReachableR st → ReachableR ((create_group gn b true c st).2)
  | addm (u gn : String) {st : State} : ReachableR st →
      ReachableR ((add_user_to_group u gn st).2)
  | pay (gn : String) (a : ℚ) (u : String) {st : State} : ReachableR st →
      ReachableR ((pay_share gn a u st).2)
  | dec (gn u act c : String) {st : State} : ReachableR st →
      ReachableR ((approve_payment gn u act c st).2)

/-- Concrete run: register alice, alice creates group "golf" (budget 100,
creator included), then bob registers listing "golf" as an initial group —
`register` appends bob to the members list without recomputing the split and
without creating a Payment record for him. -/
def stBad : State :=
  (register "bob" "pw" "user" "golf"
    (create_group "golf" 100 true "alice"
      (register "alice" "pw" "user" "" initState).2).2).2

/-- The "golf" group record stored in `stBad`. -/
def gBad : Group :=
  { admin := some "alice", budget := some 100, members := ["alice", "bob"]
    split_amount := some 100
    payments := some [("alice", ⟨0, .unpaid⟩)] }

/-- A store with one healthy group: alice is admin and sole member, budget
and split are 100, and her share is still unpaid. -/
def stDemo : State :=
  { users := []
    groups := [("g", { admin := some "alice", budget := some 100
                       members := ["alice"], split_amount := some 100
                       payments := some [("alice", ⟨0, .unpaid⟩)] })] }

/-- A store in which alice's payment of 100 against split 100 has been
approved. -/
def stApproved : State :=
  { users := []
    groups := [("g", { admin := some "alice", budget := some 100
                       members := ["alice"], split_amount := some 100
                       payments := some [("alice", ⟨100, .approved⟩)] })] }

/-- A store in which alice has submitted a short payment of 50 against a
split of 100 and is awaiting the admin's decision. -/
def stShort : State :=
  { users := []
    groups := [("g", { admin := some "alice", budget := some 100
                       members := ["alice"], split_amount := some 100
                       payments := some [("alice", ⟨50, .pending_approval⟩)] })] }

/-- Concrete run staying inside the restricted operation set: register alice
(no initial groups), then alice creates "trip" with budget 300 and herself as
member, then register bob (no initial groups), then bob is added to "trip". -/
def stW1 : State :=
  (add_user_to_group "bob" "trip"
    (register "bob" "pw" "user" ""
      (create_group "trip" 300 true "alice"
        (register "alice" "pw" "user" "" initState).2).2).2).2

/-- A store with two registered users and one group "old" that bob is not yet
a member of. -/
def stW9 : State :=
  { users := [("alice", { username := "alice", password := "h1"
                          roles := ["user"], groups := [] }),
              ("bob", { username := "bob", password := "h2"
                        roles := ["user"], groups := [] })]
    groups := [("old", { admin := some "alice", budget := some 60
                         members := ["alice"], split_amount := some 60
                         payments := some [("alice", ⟨0, .unpaid⟩)] })] }

def paymentsUpd (st : State) (gn : String) (g : Group)
    (ps : List (String × Payment)) (u : String) (p : Payment) : State :=
  let g1 := { g with payments := some (aset ps u p) }
  { st with groups := aset st.groups gn g1 }

def freshGroup (c : String) (b : ℚ) : Group :=
  { admin := some c, budget := some b, members := [c]
    split_amount := some (b / ((1 : ℕ) : ℚ)), payments := some [(c, ⟨0, .unpaid⟩)] }

def splitUpd (st : State) (users1 : List (String × UserRec)) (gn : String) (g : Group)
    (split : ℚ) (ps1 : List (String × Payment)) : State :=
  let g3 := { g with split_amount := some split, payments := some ps1 }
  { users := users1, groups := aset st.groups gn g3 }

theorem alookup_aset_self {α : Type} (l : List (String × α)) (k : String) (v : α) :
    alookup (aset l k v) k = some v := by
  induction l with
  | nil => simp [aset, alookup]
  | cons p rest ih =>
    by_cases h : p.1 = k
    · simp [aset, h, alookup]
    · simp [aset, h, alookup, ih]

theorem alookup_aset_ne {α : Type} (l : List (String × α)) (k k' : String) (v : α)
    (h : k' ≠ k) : alookup (aset l k v) k' = alookup l k' := by
  have hne : ¬ k = k' := fun hh => h hh.symm
  induction l with
  | nil => simp [aset, alookup, hne]
  | cons p rest ih =>
    by_cases hp : p.1 = k
    · subst hp
      simp [aset, alookup, hne]
    · simp [aset, hp, alookup, ih]

theorem alookup_isSome_iff_mem {α : Type} (l : List (String × α)) (k : String) :
    (alookup l k).isSome ↔ k ∈ l.map Prod.fst := by
  induction l with
  | nil => simp [alookup]
  | cons p rest ih =>
    by_cases h : p.1 = k
    · subst h; simp [alookup]
    · have hne : ¬ k = p.1 := fun hh => h hh.symm
      simp [alookup, h, ih, hne]

theorem alookup_none_iff_not_mem {α : Type} (l : List (String × α)) (k : String) :
    alookup l k = none ↔ k ∉ l.map Prod.fst := by
  rw [← alookup_isSome_iff_mem, Option.isSome_iff_ne_none]
  constructor
  · intro h hne; exact hne h
  · intro h; by_contra hc; exact h hc

theorem keys_aset_of_isSome {α : Type} (l : List (String × α)) (k : String) (v : α)
    (h : (alookup l k).isSome) :
    (aset l k v).map Prod.fst = l.map Prod.fst := by
  induction l with
  | nil => simp [alookup] at h
  | cons p rest ih =>
    by_cases hp : p.1 = k
    · simp [aset, hp]
    · simp [alookup, hp] at h
      simp [aset, hp, ih h]

theorem keys_aset_of_none {α : Type} (l : List (String × α)) (k : String) (v : α)
    (h : alookup l k = none) :
    (aset l k v).map Prod.fst = l.map Prod.fst ++ [k] := by
  induction l with
  | nil => simp [aset]
  | cons p rest ih =>
    by_cases hp : p.1 = k
    · simp [alookup, hp] at h
    · simp [alookup, hp] at h
      simp [aset, hp, ih h]

theorem keys_aset_nodup {α : Type} (l : List (String × α)) (k : String) (v : α)
    (h : (l.map Prod.fst).Nodup) : ((aset l k v).map Prod.fst).Nodup := by
  rcases ho : alookup l k with _ | w
  · rw [keys_aset_of_none l k v ho]
    rw [List.nodup_append]
    refine ⟨h, List.nodup_singleton k, ?_⟩
    intro a ha hb
    rw [List.mem_singleton] at hb
    exact ((alookup_none_iff_not_mem l k).1 ho) (hb ▸ ha)
  · rw [keys_aset_of_isSome l k v (by simp [ho])]
    exact h

theorem alookup_aset_isSome {α : Type} (l : List (String × α)) (k k' : String) (v : α)
    (h : (alookup l k').isSome) : (alookup (aset l k v) k').isSome := by
  by_cases hk : k' = k
  · subst hk; simp [alookup_aset_self]
  · rw [alookup_aset_ne l k k' v hk]; exact h

theorem asetdefault_of_isSome {α : Type} (l : List (String × α)) (k : String) (v : α)
    (h : (alookup l k).isSome) : asetdefault l k v = l := by
  rcases ho : alookup l k with _ | w
  · rw [ho] at h; simp at h
  · simp [asetdefault, ho]

theorem asetdefault_of_none {α : Type} (l : List (String × α)) (k : String) (v : α)
    (h : alookup l k = none) : asetdefault l k v = l ++ [(k, v)] := by
  simp [asetdefault, h]

theorem alookup_append {α : Type} (l1 l2 : List (String × α)) (k : String) :
    alookup (l1 ++ l2) k = (alookup l1 k).or (alookup l2 k) := by
  induction l1 with
  | nil => simp [alookup]
  | cons p rest ih =>
    by_cases h : p.1 = k
    · simp [alookup, h]
    · simp [alookup, h, ih]

theorem alookup_asetdefault_isSome {α : Type} (l : List (String × α)) (k : String)
    (v : α) : (alookup (asetdefault l k v) k).isSome := by
  rcases ho : alookup l k with _ | w
  · rw [asetdefault_of_none l k v ho, alookup_append, ho]
    simp [alookup]
  · rw [asetdefault_of_isSome l k v (by simp [ho]), ho]
    simp

theorem alookup_asetdefault_preserve {α : Type} (l : List (String × α)) (k k' : String)
    (v : α) (h : (alookup l k').isSome) :
    (alookup (asetdefault l k v) k').isSome := by
  rcases ho : alookup l k with _ | w
  · rw [asetdefault_of_none l k v ho, alookup_append]
    rcases hk : alookup l k' with _ | w'
    · rw [hk] at h; simp at h
    · simp
  · rw [asetdefault_of_isSome l k v (by simp [ho])]
    exact h

theorem keys_asetdefault_nodup {α : Type} (l : List (String × α)) (k : String) (v : α)
    (h : (l.map Prod.fst).Nodup) : ((asetdefault l k v).map Prod.fst).Nodup := by
  rcases ho : alookup l k with _ | w
  · rw [asetdefault_of_none l k v ho, List.map_append, List.nodup_append]
    refine ⟨h, by simp, ?_⟩
    intro a ha hb
    simp at hb
    exact ((alookup_none_iff_not_mem l k).1 ho) (hb ▸ ha)
  · rw [asetdefault_of_isSome l k v (by simp [ho])]
    exact h

theorem foldl_asetdefault_nodup {α : Type} (ms : List String)
    (ps : List (String × α)) (v : α) (h : (ps.map Prod.fst).Nodup) :
    ((ms.foldl (fun acc m => asetdefault acc m v) ps).map Prod.fst).Nodup := by
  induction ms generalizing ps with
  | nil => simpa using h
  | cons m rest ih =>
    simp only [List.foldl_cons]
    exact ih (asetdefault ps m v) (keys_asetdefault_nodup ps m v h)

theorem foldl_asetdefault_preserve {α : Type} (ms : List String)
    (ps : List (String × α)) (v : α) (k : String) (h : (alookup ps k).isSome) :
    (alookup (ms.foldl (fun acc m => asetdefault acc m v) ps) k).isSome := by
  induction ms generalizing ps with
  | nil => simpa using h
  | cons m rest ih =>
    simp only [List.foldl_cons]
    exact ih (asetdefault ps m v) (alookup_asetdefault_preserve ps m k v h)

theorem foldl_asetdefault_mem {α : Type} (ms : List String)
    (ps : List (String × α)) (v : α) (k : String) (h : k ∈ ms) :
    (alookup (ms.foldl (fun acc m => asetdefault acc m v) ps) k).isSome := by
  induction ms generalizing ps with
  | nil => simp at h
  | cons m rest ih =>
    simp only [List.foldl_cons]
    rcases List.mem_cons.1 h with hk | hk
    · subst hk
      exact foldl_asetdefault_preserve rest (asetdefault ps k v) v k
        (alookup_asetdefault_isSome ps k v)
    · exact ih (asetdefault ps m v) hk

theorem keyCount_eq_zero_of_not_mem {α : Type} (l : List (String × α)) (k : String)
    (h : k ∉ l.map Prod.fst) : keyCount l k = 0 := by
  induction l with
  | nil => simp [keyCount]
  | cons p rest ih =>
    simp only [List.map_cons, List.mem_cons] at h
    push_neg at h
    have h1 : ¬ ((p.1 == k) = true) := by
      simp only [beq_iff_eq]
      exact fun hh => h.1 (hh ▸ rfl)
    simp only [keyCount, List.filter_cons] at ih ⊢
    rw [if_neg h1]
    exact ih h.2

theorem keyCount_eq_one_of {α : Type} (ps : List (String × α)) (m : String)
    (hnd : (ps.map Prod.fst).Nodup) (h : (alookup ps m).isSome) :
    keyCount ps m = 1 := by
  induction ps with
  | nil => simp [alookup] at h
  | cons p rest ih =>
    rw [List.map_cons, List.nodup_cons] at hnd
    by_cases hm : p.1 = m
    · have hz : keyCount rest m = 0 :=
        keyCount_eq_zero_of_not_mem rest m (hm ▸ hnd.1)
      simp only [keyCount, List.filter_cons] at hz ⊢
      rw [if_pos (by simp [beq_iff_eq, hm])]
      simp [hz]
    · have h2 : (alookup rest m).isSome := by
        simpa [alookup, hm] using h
      have := ih hnd.2 h2
      simp only [keyCount, List.filter_cons] at this ⊢
      rw [if_neg (by simp [beq_iff_eq, hm])]
      exact this

theorem abs_round2_sub (q : ℚ) : |round2 q - q| ≤ 1 / 200 := by
  have h := abs_sub_round (q * 100)
  have heq : round2 q - q = -((q * 100 - ((round (q * 100) : ℤ) : ℚ)) / 100) := by
    unfold round2; ring
  rw [heq, abs_neg, abs_div, abs_of_pos (by norm_num : (0 : ℚ) < 100)]
  rw [div_le_div_iff₀ (by norm_num) (by norm_num : (0 : ℚ) < 200)]
  nlinarith [h]

theorem split_bound (b : ℚ) (n : ℕ) (hn : 0 < n) :
    |round2 (b / (n : ℚ)) * (n : ℚ) - b| ≤ (n : ℚ) / 200 := by
  have hn0 : (0 : ℚ) < (n : ℚ) := by exact_mod_cast hn
  have hne : (n : ℚ) ≠ 0 := ne_of_gt hn0
  have h := abs_round2_sub (b / (n : ℚ))
  have heq : round2 (b / (n : ℚ)) * (n : ℚ) - b
      = (round2 (b / (n : ℚ)) - b / (n : ℚ)) * (n : ℚ) := by
    field_simp
  rw [heq, abs_mul, abs_of_pos hn0]
  calc |round2 (b / (n : ℚ)) - b / (n : ℚ)| * (n : ℚ)
      ≤ (1 / 200) * (n : ℚ) := by
        exact mul_le_mul_of_nonneg_right h (le_of_lt hn0)
    _ = (n : ℚ) / 200 := by ring

theorem pay_share_exceeds (gn : String) (amount : ℚ) (u : String) (st : State)
    (g : Group) (s : ℚ) (ps : List (String × Payment)) (p : Payment)
    (hg : alookup st.groups gn = some g) (hm : u ∈ g.members)
    (hs : g.split_amount = some s) (hps : g.payments = some ps)
    (hp : alookup ps u = some p) (hgt : s < amount) :
    pay_share gn amount u st = (.error (.http 400 "Exceeds threshold amount"), st) := by
  simp only [pay_share, hg, hs, hps, hp, if_pos hm]
  rw [if_pos hgt]

theorem pay_share_ok (gn : String) (amount : ℚ) (u : String) (st : State)
    (g : Group) (s : ℚ) (ps : List (String × Payment)) (p : Payment)
    (hg : alookup st.groups gn = some g) (hm : u ∈ g.members)
    (hs : g.split_amount = some s) (hps : g.payments = some ps)
    (hp : alookup ps u = some p) (hle : amount ≤ s) :
    pay_share gn amount u st =
      (.ok ⟨amount, .pending_approval⟩,
       paymentsUpd st gn g ps u ⟨amount, .pending_approval⟩) := by
  simp only [pay_share, hg, hs, hps, hp, if_pos hm, paymentsUpd]
  rw [if_neg (not_lt.2 hle)]

theorem approve_spec (gn u act c : String) (st : State) (g : Group) (adm : String)
    (s : ℚ) (ps : List (String × Payment)) (p : Payment)
    (hg : alookup st.groups gn = some g) (hadm : g.admin = some adm) (hc : c = adm)
    (hps : g.payments = some ps) (hp : alookup ps u = some p)
    (hs : g.split_amount = some s) :
    approve_payment gn u act c st =
      (.ok ⟨p.paid_amount, if act = "approve" ∧ p.paid_amount = s then .approved
                           else if act = "deny" then .denied else .pending⟩,
       paymentsUpd st gn g ps u
         ⟨p.paid_amount, if act = "approve" ∧ p.paid_amount = s then .approved
                         else if act = "deny" then .denied else .pending⟩) := by
  subst hc
  simp only [approve_payment, hg, hadm, hps, hp, hs, paymentsUpd]
  rw [if_neg (show ¬ c ≠ c from fun hh => hh rfl)]
  by_cases h1 : act = "approve" ∧ p.paid_amount = s
  · rw [if_pos h1, if_pos h1]
  · rw [if_neg h1, if_neg h1]
    by_cases h2 : act = "deny"
    · rw [if_pos h2, if_pos h2]
    · rw [if_neg h2, if_neg h2]

theorem create_group_fresh_spec (gn : String) (b : ℚ) (c : String) (st : State)
    (hg : alookup st.groups gn = none) :
    create_group gn b true c st =
      (.ok (freshGroup c b), { st with groups := aset st.groups gn (freshGroup c b) }) := by
  simp [create_group, hg, freshGroup]

theorem add_user_mem_spec (u gn : String) (st : State) (usr : UserRec) (g : Group)
    (b : ℚ) (ps : List (String × Payment))
    (hu : alookup st.users u = some usr) (hg : alookup st.groups gn = some g)
    (hb : g.budget = some b) (hps : g.payments = some ps) (hm : u ∈ g.members) :
    add_user_to_group u gn st =
      (.ok (round2 (b / (g.members.length : ℚ))),
       splitUpd st st.users gn g (round2 (b / (g.members.length : ℚ)))
         (g.members.foldl (fun acc m => asetdefault acc m ⟨0, .unpaid⟩) ps)) := by
  simp only [add_user_to_group, hu, hg, if_pos hm, hb, hps, splitUpd]

theorem add_user_new_spec (u gn : String) (st : State) (usr : UserRec) (g : Group)
    (b : ℚ) (ps : List (String × Payment))
    (hu : alookup st.users u = some usr) (hg : alookup st.groups gn = some g)
    (hb : g.budget = some b) (hps : g.payments = some ps) (hm : u ∉ g.members) :
    add_user_to_group u gn st =
      (.ok (round2 (b / ((g.members.length + 1 : ℕ) : ℚ))),
       splitUpd st (aset st.users u { usr with groups := usr.groups ++ [gn] }) gn
         { g with members := g.members ++ [u] }
         (round2 (b / ((g.members.length + 1 : ℕ) : ℚ)))
         ((g.members ++ [u]).foldl (fun acc m => asetdefault acc m ⟨0, .unpaid⟩) ps)) := by
  simp only [add_user_to_group, hu, hg, if_neg hm, hb, hps, splitUpd,
    List.length_append, List.length_singleton]

theorem stinv_aux_init : StInvAux initState := by
  intro gn g h
  simp [initState, alookup] at h

theorem stinv_aux_aset (st : State) (users1 : List (String × UserRec)) (gn : String)
    (gNew : Group) (h : StInvAux st) (hnew : GroupInvAux gNew) :
    StInvAux { users := users1, groups := aset st.groups gn gNew } := by
  intro gn2 g2 hl
  have hl1 : alookup (aset st.groups gn gNew) gn2 = some g2 := hl
  by_cases he : gn2 = gn
  · subst he
    rw [alookup_aset_self] at hl1
    exact Option.some.inj hl1 ▸ hnew
  · rw [alookup_aset_ne st.groups gn gn2 gNew he] at hl1
    exact h gn2 g2 hl1

theorem groupinv_aux_payset (g : Group) (ps : List (String × Payment)) (u : String)
    (pN : Payment) (hps : g.payments = some ps) (hu : (alookup ps u).isSome)
    (hinv : GroupInvAux g) :
    GroupInvAux { g with payments := some (aset ps u pN) } := by
  obtain ⟨b, s, ps2, hb, hs, hps2, hnd, hbound, hmem⟩ := hinv
  have hpe : ps2 = ps := by
    rw [hps] at hps2
    exact (Option.some.inj hps2).symm
  subst hpe
  refine ⟨b, s, aset ps2 u pN, hb, hs, rfl, ?_, hbound, ?_⟩
  · rw [keys_aset_of_isSome ps2 u pN hu]
    exact hnd
  · exact fun m hm => alookup_aset_isSome ps2 u m pN (hmem m hm)

theorem groupinv_aux_split (g : Group) (b : ℚ) (ps : List (String × Payment))
    (ms : List String) (hb : g.budget = some b) (hms : 0 < ms.length)
    (hnd : (ps.map Prod.fst).Nodup) :
    GroupInvAux { g with members := ms
                         split_amount := some (round2 (b / (ms.length : ℚ)))
                         payments := some (ms.foldl
                           (fun acc m => asetdefault acc m ⟨0, .unpaid⟩) ps) } := by
  refine ⟨b, round2 (b / (ms.length : ℚ)),
    ms.foldl (fun acc m => asetdefault acc m ⟨0, .unpaid⟩) ps, hb, rfl, rfl, ?_, ?_, ?_⟩
  · exact foldl_asetdefault_nodup ms ps ⟨0, .unpaid⟩ hnd
  · exact split_bound b ms.length hms
  · exact fun m hm => foldl_asetdefault_mem ms ps ⟨0, .unpaid⟩ m hm

theorem stinv_aux_register (u p r gs : String) (st : State)
    (hgs : parseGroups gs = []) (h : StInvAux st) :
    StInvAux ((register u p r gs st).2) := by
  by_cases hu : (alookup st.users u).isSome
  · simpa only [register, if_pos hu] using h
  · intro gn g hl
    have hl1 : alookup st.groups gn = some g := by
      simpa only [register, if_neg hu, hgs, List.foldl_nil] using hl
    exact h gn g hl1

theorem stinv_aux_create (gn : String) (b : ℚ) (c : String) (st : State)
    (h : StInvAux st) : StInvAux ((create_group gn b true c st).2) := by
  rcases hg : alookup st.groups gn with _ | g0
  · rw [create_group_fresh_spec gn b c st hg]
    refine stinv_aux_aset st st.users gn (freshGroup c b) h ?_
    refine ⟨b, b / ((1 : ℕ) : ℚ), [(c, ⟨0, .unpaid⟩)], rfl, rfl, rfl, by simp, ?_, ?_⟩
    · simp [freshGroup, div_one]
    · intro m hm
      simp [freshGroup] at hm
      simp [alookup, hm]
  · have hg1 : (alookup st.groups gn).isSome := by simp [hg]
    simpa only [create_group, if_pos hg1] using h

theorem stinv_aux_add (u gn : String) (st : State) (h : StInvAux st) :
    StInvAux ((add_user_to_group u gn st).2) := by
  rcases hu : alookup st.users u with _ | usr
  · simpa only [add_user_to_group, hu] using h
  · rcases hg : alookup st.groups gn with _ | g
    · simpa only [add_user_to_group, hu, hg] using h
    · obtain ⟨b, s, ps, hb, hs, hps, hnd, hbound, hmem⟩ := h gn g hg
      by_cases hm : u ∈ g.members
      · rw [add_user_mem_spec u gn st usr g b ps hu hg hb hps hm]
        refine stinv_aux_aset st st.users gn _ h ?_
        have hlen : 0 < g.members.length := List.length_pos.2 (List.ne_nil_of_mem hm)
        exact groupinv_aux_split g b ps g.members hb hlen hnd
      · rw [add_user_new_spec u gn st usr g b ps hu hg hb hps hm]
        refine stinv_aux_aset st _ gn _ h ?_
        have hgb : ({ g with members := g.members ++ [u] } : Group).budget = some b := hb
        have := groupinv_aux_split { g with members := g.members ++ [u] } b ps
          (g.members ++ [u]) hgb (by simp) hnd
        simpa using this

theorem stinv_aux_pay (gn : String) (a : ℚ) (u : String) (st : State)
    (h : StInvAux st) : StInvAux ((pay_share gn a u st).2) := by
  rcases hg : alookup st.groups gn with _ | g
  · simpa only [pay_share, hg] using h
  · by_cases hm : u ∈ g.members
    · rcases hs : g.split_amount with _ | s
      · simpa only [pay_share, hg, hs, if_pos hm] using h
      · rcases hps : g.payments with _ | ps
        · simpa only [pay_share, hg, hs, hps, if_pos hm] using h
        · rcases hp : alookup ps u with _ | p
          · simpa only [pay_share, hg, hs, hps, hp, if_pos hm] using h
          · by_cases ha : a > s
            · rw [pay_share_exceeds gn a u st g s ps p hg hm hs hps hp ha]
              exact h
            · rw [pay_share_ok gn a u st g s ps p hg hm hs hps hp (not_lt.1 ha)]
              refine stinv_aux_aset st st.users gn _ h ?_
              exact groupinv_aux_payset g ps u ⟨a, .pending_approval⟩ hps
                (by simp [hp]) (h gn g hg)
    · simpa only [pay_share, hg, if_neg hm] using h

theorem stinv_aux_approve (gn u act c : String) (st : State) (h : StInvAux st) :
    StInvAux ((approve_payment gn u act c st).2) := by
  rcases hg : alookup st.groups gn with _ | g
  · simpa only [approve_payment, hg] using h
  · rcases hadm : g.admin with _ | adm
    · simpa only [approve_payment, hg, hadm] using h
    · by_cases hc : c ≠ adm
      · simpa only [approve_payment, hg, hadm, if_pos hc] using h
      · rcases hps : g.payments with _ | ps
        · simpa only [approve_payment, hg, hadm, if_neg hc, hps] using h
        · rcases hp : alookup ps u with _ | p
          · simpa only [approve_payment, hg, hadm, if_neg hc, hps, hp] using h
          · rcases hs : g.split_amount with _ | s
            · simpa only [approve_payment, hg, hadm, if_neg hc, hps, hp, hs] using h
            · rw [approve_spec gn u act c st g adm s ps p hg hadm (not_not.1 hc) hps hp hs]
              refine stinv_aux_aset st st.users gn _ h ?_
              exact groupinv_aux_payset g ps u _ hps (by simp [hp]) (h gn g hg)

theorem reachr_stinv_aux (st : State) (h : ReachableR st) : StInvAux st := by
  induction h with
  | init => exact stinv_aux_init
  | reg u p r gs hst hgs ih => exact stinv_aux_register u p r gs _ hgs ih
  | cg gn b c hst ih => exact stinv_aux_create gn b c _ ih
  | addm u gn hst ih => exact stinv_aux_add u gn _ ih
  | pay gn a u hst ih => exact stinv_aux_pay gn a u _ ih
  | dec gn u act c hst ih => exact stinv_aux_approve gn u act c _ ih

theorem stinv_aux_implies (st : State) (h : StInvAux st) : StInv st := by
  intro gn g hl
  obtain ⟨b, s, ps, hb, hs, hps, hnd, hbound, hmem⟩ := h gn g hl
  exact ⟨b, s, ps, hb, hs, hps, hbound,
    fun m hm => keyCount_eq_one_of ps m hnd (hmem m hm)⟩


/-- Claim C1, as stated: after any sequence of register, create_group,
add_member, submit_payment and decide_payment operations, every group in the
store satisfies the split/budget relation and has exactly one Payment record
per member.  Refuted: after registering bob with initial group "golf" (an
existing group created with budget 100 and sole member alice), the "golf"
group has two members but split_amount 100 and a single Payment record, so
bob has none. -/
theorem c1_counterexample : ReachableOrig stBad ∧ ¬ StInv stBad := by
  constructor
  · exact ReachableOrig.reg "bob" "pw" "user" "golf"
      (ReachableOrig.cg "golf" 100 true "alice"
        (ReachableOrig.reg "alice" "pw" "user" "" ReachableOrig.init))
  · intro h
    have hl : alookup stBad.groups "golf" = some gBad := by
      norm_num +decide [stBad, gBad, register, create_group, initState, parseGroups,
        splitCommaAux, stripChars, alookup, aset, hash_password, List.dropWhile]
    obtain ⟨b, s, ps, hb, hs, hps, hbound, hmem⟩ := h "golf" gBad hl
    have hbob : keyCount ps "bob" = 1 := hmem "bob" (by simp [gBad])
    have hpse : ps = [("alice", ⟨0, .unpaid⟩)] := by
      have h2 := hps
      simp only [gBad, Option.some.injEq] at h2
      exact h2.symm
    rw [hpse] at hbob
    exact absurd hbob (by decide)

/-- Claim C1 (amended): the invariant does hold for every group in the store
after any sequence of the five operations in which register carries no
initial groups and create_group includes the creator: `split_amount *
|members|` is within half a cent per member of the budget, and every member
has exactly one Payment record. -/
theorem c1_invariant (st : State) (h : ReachableR st) : StInv st :=
  stinv_aux_implies st (reachr_stinv_aux st h)

/-- Witness for C1 (amended) at the concrete run `stW1`. -/
theorem c1_invariant_witness : StInv stW1 :=
  c1_invariant stW1
    (ReachableR.addm "bob" "trip"
      (ReachableR.reg "bob" "pw" "user" ""
        (ReachableR.cg "trip" 300 "alice"
          (ReachableR.reg "alice" "pw" "user" "" ReachableR.init (by decide)))
        (by decide)))


/-- Claim C2, as stated: with a positive budget and the creator not included,
create_group succeeds with split_amount = budget thanks to a max(1, ...)
floor.  Refuted at budget 100 on an empty store: the call raises an unhandled
ZeroDivisionError (there is no floor), and the group it leaves behind in the
store carries split_amount 0, not the budget. -/
theorem c2_counterexample :
    (create_group "g" 100 false "alice" initState).1 = .error .zeroDivision ∧
    alookup ((create_group "g" 100 false "alice" initState).2).groups "g" =
      some { admin := some "alice", budget := some 100, members := []
             split_amount := some 0, payments := some [] } :=
  ⟨rfl, rfl⟩

/-- Claim C2 (amended): for every budget and fresh group name, create_group
with add_creator = false divides the budget by zero — there is no
max(1, ...) floor — raising an unhandled ZeroDivisionError, and the store is
left holding the half-initialized group with members = [] and
split_amount = 0 instead of the budget. -/
theorem c2_zero_members (gn : String) (b : ℚ) (c : String) (st : State)
    (hfresh : alookup st.groups gn = none) :
    (create_group gn b false c st).1 = .error .zeroDivision ∧
    alookup ((create_group gn b false c st).2).groups gn =
      some { admin := some c, budget := some b, members := []
             split_amount := some 0, payments := some [] } := by
  have hng : ¬ ((alookup st.groups gn).isSome = true) := by simp [hfresh]
  constructor
  · simp only [create_group, if_neg hng]
    rfl
  · simp only [create_group, if_neg hng]
    exact alookup_aset_self st.groups gn _

/-- Witness for C2 (amended) on the empty store. -/
theorem c2_zero_members_witness :
    (create_group "trip" 250 false "ann" initState).1 = .error .zeroDivision ∧
    alookup ((create_group "trip" 250 false "ann" initState).2).groups "trip" =
      some { admin := some "ann", budget := some 250, members := []
             split_amount := some 0, payments := some [] } :=
  c2_zero_members "trip" 250 "ann" initState rfl

/-- Claim C3, as stated: no access-only check accepts a refresh token.
Refuted: the protected endpoint calls get_token_payload, which never
inspects token_type, so a freshly minted refresh token (token_type
"refresh") is served exactly like an access token. -/
theorem c3_counterexample :
    (create_refresh_token ⟨"alice", ["user"], []⟩ 0).token_type = "refresh" ∧
    protected_endpoint (create_refresh_token ⟨"alice", ["user"], []⟩ 0) 100 =
      .ok ("Hello alice", ["user"]) :=
  ⟨rfl, rfl⟩

/-- Claim C3 (amended): the service performs no token_type discrimination on
access paths: every unexpired refresh token is accepted by the protected
endpoint and yields the greeting built from its claims; the only token_type
check in the service is the refresh endpoint, which conversely rejects every
unexpired token whose token_type is not "refresh". -/
theorem c3_no_type_check (c : Claims) (now t : Nat)
    (h : t < (create_refresh_token c now).exp) :
    protected_endpoint (create_refresh_token c now) t =
      .ok (String.append "Hello " c.sub, c.roles) ∧
    (∀ tok : TokenPayload, t < tok.exp → tok.token_type ≠ "refresh" →
      refresh_token tok t = .error (.http 401 "Invalid refresh token")) := by
  constructor
  · have hx : ¬ (now + REFRESH_TOKEN_EXPIRE_DAYS * 86400 ≤ t) := by
      simpa [create_refresh_token] using not_le.2 h
    simp [protected_endpoint, get_token_payload, create_refresh_token, hx]
  · intro tok ht hty
    have hx : ¬ tok.exp ≤ t := not_le.2 ht
    simp [refresh_token, get_token_payload, hx, hty]

/-- Witness for C3 (amended): a refresh token minted at time 0 is accepted by
the protected endpoint at time 100. -/
theorem c3_no_type_check_witness :
    protected_endpoint (create_refresh_token ⟨"bo", ["user"], []⟩ 0) 100 =
      .ok (String.append "Hello " "bo", ["user"]) :=
  (c3_no_type_check ⟨"bo", ["user"], []⟩ 0 100 (by decide)).1

/-- Claim C7, as stated: a non-positive budget makes create_group fail with a
validation error and no group is created.  Refuted at budget 0: the call
succeeds (no budget validation exists) and the group is stored. -/
theorem c7_counterexample :
    ((create_group "g" 0 true "alice" initState).1).isOk = true ∧
    (alookup ((create_group "g" 0 true "alice" initState).2).groups "g").isSome
      = true :=
  ⟨rfl, rfl⟩

/-- Claim C7 (amended): create_group performs no budget validation at all:
for every budget, including budget ≤ 0, a call with a fresh name and the
creator included succeeds and stores the group with exactly that budget. -/
theorem c7_no_budget_validation (gn : String) (b : ℚ) (c : String) (st : State)
    (hfresh : alookup st.groups gn = none) (_hb : b ≤ 0) :
    create_group gn b true c st =
      (.ok (freshGroup c b), { st with groups := aset st.groups gn (freshGroup c b) }) :=
  create_group_fresh_spec gn b c st hfresh

/-- Witness for C7 (amended) at budget -50 on the empty store. -/
theorem c7_no_budget_validation_witness :
    create_group "g" (-50) true "alice" initState =
      (.ok (freshGroup "alice" (-50)),
       { initState with groups := aset initState.groups "g" (freshGroup "alice" (-50)) }) :=
  c7_no_budget_validation "g" (-50) "alice" initState rfl (by norm_num)

/-- Claim C8: an access token verified strictly before its expiry yields back
exactly the subject, roles and groups it was issued from, and verifying it
strictly after its expiry fails with the token-expired error. -/
theorem c8_token_roundtrip (c : Claims) (now t : Nat) (d : Option Nat) :
    (t < (create_access_token c now d).exp →
      get_token_payload (create_access_token c now d) t =
        .ok (create_access_token c now d) ∧
      (create_access_token c now d).sub = c.sub ∧
      (create_access_token c now d).roles = c.roles ∧
      (create_access_token c now d).groups = c.groups) ∧
    ((create_access_token c now d).exp < t →
      get_token_payload (create_access_token c now d) t =
        .error (.http 401 "Token expired")) := by
  constructor
  · intro h
    refine ⟨?_, rfl, rfl, rfl⟩
    simp [get_token_payload, not_le.2 h]
  · intro h
    simp [get_token_payload, le_of_lt h]

/-- Witness for C8: a token minted at time 0 with the default TTL (expiry
1800) verifies at time 10 and is rejected as expired at time 9999. -/
theorem c8_token_roundtrip_witness :
    (get_token_payload (create_access_token ⟨"alice", ["user"], []⟩ 0 none) 10 =
      .ok (create_access_token ⟨"alice", ["user"], []⟩ 0 none)) ∧
    (get_token_payload (create_access_token ⟨"alice", ["user"], []⟩ 0 none) 9999 =
      .error (.http 401 "Token expired")) :=
  ⟨((c8_token_roundtrip ⟨"alice", ["user"], []⟩ 0 10 none).1 (by decide)).1,
   (c8_token_roundtrip ⟨"alice", ["user"], []⟩ 0 9999 none).2 (by decide)⟩


/-- Claim C4, as stated: approved is a terminal status.  Refuted: on a store
holding alice's approved payment, the admin's deny decision moves the stored
status from approved to denied. -/
theorem c4_counterexample :
    alookup stApproved.groups "g" =
      some { admin := some "alice", budget := some 100, members := ["alice"]
             split_amount := some 100
             payments := some [("alice", ⟨100, .approved⟩)] } ∧
    approve_payment "g" "alice" "deny" "alice" stApproved =
      (.ok ⟨100, .denied⟩,
       { users := []
         groups := [("g", { admin := some "alice", budget := some 100
                            members := ["alice"], split_amount := some 100
                            payments := some [("alice", ⟨100, .denied⟩)] })] }) :=
  ⟨rfl, rfl⟩

/-- Claim C4 (amended): approved is not terminal.  For a member whose payment
is approved: the admin's deny sets it to denied, any unrecognized action
resets it to pending, a resubmission by the member (any amount up to the
split) sets it back to pending_approval, and only re-approving with the
matching amount leaves it approved. -/
theorem c4_approved_not_terminal (st : State) (gn : String) (g : Group)
    (adm : String) (s : ℚ) (ps : List (String × Payment)) (u : String)
    (p : Payment) (hg : alookup st.groups gn = some g) (hadm : g.admin = some adm)
    (hps : g.payments = some ps) (hp : alookup ps u = some p)
    (hs : g.split_amount = some s) (_happ : p.status = .approved) :
    (approve_payment gn u "deny" adm st).1 = .ok ⟨p.paid_amount, .denied⟩ ∧
    (∀ act : String, act ≠ "approve" → act ≠ "deny" →
      (approve_payment gn u act adm st).1 = .ok ⟨p.paid_amount, .pending⟩) ∧
    (∀ amount : ℚ, u ∈ g.members → amount ≤ s →
      (pay_share gn amount u st).1 = .ok ⟨amount, .pending_approval⟩) ∧
    (p.paid_amount = s →
      (approve_payment gn u "approve" adm st).1 = .ok ⟨p.paid_amount, .approved⟩) := by
  refine ⟨?_, ?_, ?_, ?_⟩
  · rw [approve_spec gn u "deny" adm st g adm s ps p hg hadm rfl hps hp hs]
    simp
  · intro act h1 h2
    rw [approve_spec gn u act adm st g adm s ps p hg hadm rfl hps hp hs]
    have hn1 : ¬ (act = "approve" ∧ p.paid_amount = s) := fun hc => h1 hc.1
    simp [hn1, h2]
  · intro amount hm hle
    rw [pay_share_ok gn amount u st g s ps p hg hm hs hps hp hle]
  · intro he
    rw [approve_spec gn u "approve" adm st g adm s ps p hg hadm rfl hps hp hs]
    simp [he]

/-- Witness for C4 (amended) on the store holding alice's approved payment. -/
theorem c4_approved_not_terminal_witness :
    (approve_payment "g" "alice" "deny" "alice" stApproved).1 =
      .ok ⟨(100 : ℚ), .denied⟩ ∧
    (∀ act : String, act ≠ "approve" → act ≠ "deny" →
      (approve_payment "g" "alice" act "alice" stApproved).1 =
        .ok ⟨(100 : ℚ), .pending⟩) ∧
    (∀ amount : ℚ, "alice" ∈ (["alice"] : List String) → amount ≤ (100 : ℚ) →
      (pay_share "g" amount "alice" stApproved).1 =
        .ok ⟨amount, .pending_approval⟩) ∧
    ((100 : ℚ) = (100 : ℚ) →
      (approve_payment "g" "alice" "approve" "alice" stApproved).1 =
        .ok ⟨(100 : ℚ), .approved⟩) :=
  c4_approved_not_terminal stApproved "g" _ "alice" 100 _ "alice" ⟨100, .approved⟩
    rfl rfl rfl rfl rfl rfl

/-- Claim C5, as stated: decide_payment with action approve and a paid amount
differing from the split leaves the status unchanged.  Refuted: on alice's
pending_approval payment of 50 against split 100, approve moves the stored
status to pending — the if/elif chain falls through to the else branch. -/
theorem c5_counterexample :
    alookup stShort.groups "g" =
      some { admin := some "alice", budget := some 100, members := ["alice"]
             split_amount := some 100
             payments := some [("alice", ⟨50, .pending_approval⟩)] } ∧
    (approve_payment "g" "alice" "approve" "alice" stShort).1 =
      .ok ⟨50, .pending⟩ ∧
    PayStatus.pending ≠ PayStatus.pending_approval :=
  ⟨rfl, rfl, by decide⟩

/-- Claim C5 (amended): the decision table of decide_payment is: approve with
paid_amount = split sets approved; approve with paid_amount ≠ split does not
leave the status unchanged but resets it to pending (the else fallback);
deny sets denied unconditionally; any other action sets pending. -/
theorem c5_decision_table (st : State) (gn : String) (g : Group) (adm : String)
    (s : ℚ) (ps : List (String × Payment)) (u : String) (p : Payment)
    (act : String) (hg : alookup st.groups gn = some g)
    (hadm : g.admin = some adm) (hps : g.payments = some ps)
    (hp : alookup ps u = some p) (hs : g.split_amount = some s) :
    (act = "approve" → p.paid_amount = s →
      approve_payment gn u act adm st =
        (.ok ⟨p.paid_amount, .approved⟩,
         paymentsUpd st gn g ps u ⟨p.paid_amount, .approved⟩)) ∧
    (act = "approve" → p.paid_amount ≠ s →
      approve_payment gn u act adm st =
        (.ok ⟨p.paid_amount, .pending⟩,
         paymentsUpd st gn g ps u ⟨p.paid_amount, .pending⟩)) ∧
    (act = "deny" →
      approve_payment gn u act adm st =
        (.ok ⟨p.paid_amount, .denied⟩,
         paymentsUpd st gn g ps u ⟨p.paid_amount, .denied⟩)) ∧
    (act ≠ "approve" → act ≠ "deny" →
      approve_payment gn u act adm st =
        (.ok ⟨p.paid_amount, .pending⟩,
         paymentsUpd st gn g ps u ⟨p.paid_amount, .pending⟩)) := by
  rw [approve_spec gn u act adm st g adm s ps p hg hadm rfl hps hp hs]
  refine ⟨?_, ?_, ?_, ?_⟩
  · intro h1 h2
    simp [h1, h2]
  · intro h1 h2
    have hch : act = "deny" → False := by simp [h1]
    simp [h1, h2, hch]
  · intro h1
    have hn : ¬ (act = "approve" ∧ p.paid_amount = s) := by simp [h1]
    simp [hn, h1]
  · intro h1 h2
    have hn : ¬ (act = "approve" ∧ p.paid_amount = s) := fun hc => h1 hc.1
    simp [hn, h2]

/-- Witness for C5 (amended) on the store holding alice's short payment of 50
against split 100, with action approve. -/
theorem c5_decision_table_witness :
    (("approve" : String) = "approve" → (50 : ℚ) = 100 →
      approve_payment "g" "alice" "approve" "alice" stShort =
        (.ok ⟨(50 : ℚ), .approved⟩,
         paymentsUpd stShort "g"
           { admin := some "alice", budget := some 100, members := ["alice"]
             split_amount := some 100
             payments := some [("alice", ⟨50, .pending_approval⟩)] }
           [("alice", ⟨50, .pending_approval⟩)] "alice" ⟨(50 : ℚ), .approved⟩)) ∧
    (("approve" : String) = "approve" → (50 : ℚ) ≠ 100 →
      approve_payment "g" "alice" "approve" "alice" stShort =
        (.ok ⟨(50 : ℚ), .pending⟩,
         paymentsUpd stShort "g"
           { admin := some "alice", budget := some 100, members := ["alice"]
             split_amount := some 100
             payments := some [("alice", ⟨50, .pending_approval⟩)] }
           [("alice", ⟨50, .pending_approval⟩)] "alice" ⟨(50 : ℚ), .pending⟩)) ∧
    (("approve" : String) = "deny" →
      approve_payment "g" "alice" "approve" "alice" stShort =
        (.ok ⟨(50 : ℚ), .denied⟩,
         paymentsUpd stShort "g"
           { admin := some "alice", budget := some 100, members := ["alice"]
             split_amount := some 100
             payments := some [("alice", ⟨50, .pending_approval⟩)] }
           [("alice", ⟨50, .pending_approval⟩)] "alice" ⟨(50 : ℚ), .denied⟩)) ∧
    (("approve" : String) ≠ "approve" → ("approve" : String) ≠ "deny" →
      approve_payment "g" "alice" "approve" "alice" stShort =
        (.ok ⟨(50 : ℚ), .pending⟩,
         paymentsUpd stShort "g"
           { admin := some "alice", budget := some 100, members := ["alice"]
             split_amount := some 100
             payments := some [("alice", ⟨50, .pending_approval⟩)] }
           [("alice", ⟨50, .pending_approval⟩)] "alice" ⟨(50 : ℚ), .pending⟩)) :=
  c5_decision_table stShort "g" _ "alice" 100 _ "alice" ⟨50, .pending_approval⟩
    "approve" rfl rfl rfl rfl rfl

/-- Claim C6: submitting an amount strictly above the split fails with the
exceeds-threshold error and the whole store — in particular the member's
stored Payment record — is unchanged. -/
theorem c6_overpayment_rejected (st : State) (gn : String) (g : Group) (s : ℚ)
    (ps : List (String × Payment)) (u : String) (p : Payment) (amount : ℚ)
    (hg : alookup st.groups gn = some g) (hm : u ∈ g.members)
    (hs : g.split_amount = some s) (hps : g.payments = some ps)
    (hp : alookup ps u = some p) (hgt : s < amount) :
    pay_share gn amount u st = (.error (.http 400 "Exceeds threshold amount"), st) :=
  pay_share_exceeds gn amount u st g s ps p hg hm hs hps hp hgt

/-- Witness for C6: paying 150 against split 100 on `stDemo` is rejected and
the store is untouched. -/
theorem c6_overpayment_rejected_witness :
    pay_share "g" 150 "alice" stDemo =
      (.error (.http 400 "Exceeds threshold amount"), stDemo) :=
  c6_overpayment_rejected stDemo "g" _ 100 _ "alice" ⟨0, .unpaid⟩ 150
    rfl (by decide) rfl rfl rfl (by decide)

/-- Claim C10: pay_share puts no lower bound on the amount: any amount up to
the split — zero and negative amounts included — is accepted from a member
holding a Payment record, and the record is overwritten with paid_amount =
amount and status pending_approval. -/
theorem c10_no_lower_bound (st : State) (gn : String) (g : Group) (s : ℚ)
    (ps : List (String × Payment)) (u : String) (p : Payment) (amount : ℚ)
    (hg : alookup st.groups gn = some g) (hm : u ∈ g.members)
    (hs : g.split_amount = some s) (hps : g.payments = some ps)
    (hp : alookup ps u = some p) (hle : amount ≤ s) :
    pay_share gn amount u st =
      (.ok ⟨amount, .pending_approval⟩,
       paymentsUpd st gn g ps u ⟨amount, .pending_approval⟩) ∧
    alookup (aset ps u ⟨amount, .pending_approval⟩) u =
      some ⟨amount, .pending_approval⟩ :=
  ⟨pay_share_ok gn amount u st g s ps p hg hm hs hps hp hle,
   alookup_aset_self ps u ⟨amount, .pending_approval⟩⟩

/-- Witness for C10: the negative amount -5 is accepted on `stDemo` and
stored with status pending_approval. -/
theorem c10_no_lower_bound_witness :
    pay_share "g" (-5) "alice" stDemo =
      (.ok ⟨(-5 : ℚ), .pending_approval⟩,
       paymentsUpd stDemo "g"
         { admin := some "alice", budget := some 100, members := ["alice"]
           split_amount := some 100
           payments := some [("alice", ⟨0, .unpaid⟩)] }
         [("alice", ⟨0, .unpaid⟩)] "alice" ⟨(-5 : ℚ), .pending_approval⟩) ∧
    alookup (aset [("alice", (⟨0, .unpaid⟩ : Payment))] "alice"
        ⟨(-5 : ℚ), .pending_approval⟩) "alice" =
      some ⟨(-5 : ℚ), .pending_approval⟩ :=
  c10_no_lower_bound stDemo "g" _ 100 _ "alice" ⟨0, .unpaid⟩ (-5)
    rfl (by decide) rfl rfl rfl (by norm_num)


/-- Claim C9: create_group never touches the user store — whatever the
arguments and whether or not it succeeds, the users map is unchanged, login
behaves identically before and after, and in particular tokens minted for
the creator afterwards do not carry the new group in their groups claim.  By
contrast, add_user_to_group does extend the stored groups list of a user it
adds to a group. -/
theorem c9_create_group_frame (gn : String) (b : ℚ) (ac : Bool) (c : String)
    (st : State) (gn2 un : String) (uc u : UserRec) (g : Group)
    (huc : alookup st.users c = some uc) (hnotin : gn ∉ uc.groups)
    (hu : alookup st.users un = some u) (hg : alookup st.groups gn2 = some g)
    (hmem : un ∉ g.members) :
    ((create_group gn b ac c st).2).users = st.users ∧
    (∀ un2 pw now, login un2 pw ((create_group gn b ac c st).2) now =
      login un2 pw st now) ∧
    (∀ pw now tks, login c pw ((create_group gn b ac c st).2) now = .ok tks →
      gn ∉ tks.1.groups) ∧
    alookup ((add_user_to_group un gn2 st).2).users un =
      some { u with groups := u.groups ++ [gn2] } := by
  have husers : ((create_group gn b ac c st).2).users = st.users := by
    simp only [create_group]
    split
    · rfl
    · split
      · rfl
      · rfl
  have hlogin : ∀ un2 pw now,
      login un2 pw ((create_group gn b ac c st).2) now = login un2 pw st now := by
    intro un2 pw now
    simp only [login, authenticate_user, husers]
  refine ⟨husers, hlogin, ?_, ?_⟩
  · intro pw now tks hln
    rw [hlogin c pw now] at hln
    rcases hv : verify_password pw uc.password with _ | _
    · have hauth : authenticate_user c pw st = none := by
        simp [authenticate_user, huc, hv]
      rw [login, hauth] at hln
      exact absurd hln (by simp)
    · have hauth : authenticate_user c pw st = some uc := by
        simp [authenticate_user, huc, hv]
      rw [login, hauth] at hln
      have htks : tks.1 = create_access_token ⟨uc.username, uc.roles, uc.groups⟩ now none := by
        have := Except.ok.inj hln
        rw [← this]
      rw [htks]
      simpa [create_access_token] using hnotin
  · rcases hb2 : g.budget with _ | b2
    · simp only [add_user_to_group, hu, hg, if_neg hmem, hb2]
      exact alookup_aset_self st.users un _
    · rcases hps2 : g.payments with _ | ps2
      · simp only [add_user_to_group, hu, hg, if_neg hmem, hb2, hps2]
        exact alookup_aset_self st.users un _
      · simp only [add_user_to_group, hu, hg, if_neg hmem, hb2, hps2]
        exact alookup_aset_self st.users un _

/-- Witness for C9 on `stW9`: alice creates "new" (which never reaches her
user record or her tokens), while adding bob to "old" does extend bob's
stored groups list. -/
theorem c9_create_group_frame_witness :
    ((create_group "new" 40 true "alice" stW9).2).users = stW9.users ∧
    (∀ un2 pw now, login un2 pw ((create_group "new" 40 true "alice" stW9).2) now =
      login un2 pw stW9 now) ∧
    (∀ pw now tks, login "alice" pw ((create_group "new" 40 true "alice" stW9).2) now
      = .ok tks → "new" ∉ tks.1.groups) ∧
    alookup ((add_user_to_group "bob" "old" stW9).2).users "bob" =
      some { username := "bob", password := "h2", roles := ["user"]
             groups := ["old"] } :=
  c9_create_group_frame "new" 40 true "alice" stW9 "old" "bob"
    { username := "alice", password := "h1", roles := ["user"], groups := [] }
    { username := "bob", password := "h2", roles := ["user"], groups := [] }
    { admin := some "alice", budget := some 60, members := ["alice"]
      split_amount := some 60, payments := some [("alice", ⟨0, .unpaid⟩)] }
    rfl (by decide) rfl rfl (by decide)

end SplitApp
